import Mathlib

/-!
Shallow embedding of the mud3 protocol-decoding pipeline:
the Telnet negotiator of `src/server/server.js`, the vendor control-code
decoder (`MUD2Protocol`) of `src/client/js/mud2.js`, and the ANSI/SGR
display decoder (`ANSIParser`) of the client.

Byte streams are `List Nat` (each element a JS `Uint8Array` byte value /
`charCodeAt` result).  Recursive scanners are written with an explicit
fuel parameter equal to the input length: every iteration of the original
JS `while` loops advances the index by at least one, so fuel `data.length`
is always sufficient, and fuel-insensitivity lemmas below make the
embedding independent of the particular fuel.

Definitions come first, then all theorems.
-/

/-- Reply bytes for `IAC DO <opt>` (the `cmd === DO` switch in
`handleTelnetNegotiation`): TERMINAL-TYPE(24) → WILL; NAWS(31) → WILL plus
the 80×24 subnegotiation; ECHO(1) and anything else → WONT. -/
def doReply (opt : Nat) : List Nat :=
  if opt = 24 then [255, 251, 24]
  else if opt = 31 then [255, 251, 31, 255, 250, 31, 0, 80, 0, 24, 255, 240]
  else if opt = 1 then [255, 252, 1]
  else [255, 252, opt]

/-- Reply bytes for `IAC WILL <opt>`: SUPPRESS-GO-AHEAD(3) → DO; ECHO(1) → DO;
anything else → DONT. -/
def willReply (opt : Nat) : List Nat :=
  if opt = 3 then [255, 253, 3]
  else if opt = 1 then [255, 253, 1]
  else [255, 254, opt]

/-- Reply for an `IAC SB <opt> ...` subnegotiation: only
`SB TERMINAL-TYPE(24) SEND(1)` is answered, with `IAC SB 24 IS "ansi" IAC SE`
(`data[i+3] === 1`; a missing byte compares unequal, modelled by `headD 0`). -/
def sbReply (opt : Nat) (rest : List Nat) : List Nat :=
  if opt = 24 ∧ rest.headD 0 = 1 then
    [255, 250, 24, 0, 97, 110, 115, 105, 255, 240]
  else []

/-- The server's scan for the end of a subnegotiation: from `j = i + 3` it
walks `while (j < len - 1)` looking for the pair `IAC SE` and resumes at
`j + 2`; if the pair is never found the resume index passes the end of the
chunk, so the whole rest is consumed. -/
def skipSubneg : List Nat → List Nat
  | a :: b :: rest => if a = 255 ∧ b = 240 then rest else skipSubneg (b :: rest)
  | _ => []

/-- One fuel-indexed pass of `handleTelnetNegotiation`'s `while` loop.
`IAC <cmd> <opt>` is only recognised when all three bytes are present
(`i + 2 < data.length`); an `IAC` whose `cmd` is none of DO/WILL/SB just
advances the index by one. -/
def telnetRun : Nat → List Nat → List Nat
  | 0, _ => []
  | _ + 1, [] => []
  | f + 1, a :: rest =>
    match rest with
    | cmd :: opt :: rest2 =>
      if a = 255 then
        if cmd = 253 then doReply opt ++ telnetRun f rest2
        else if cmd = 251 then willReply opt ++ telnetRun f rest2
        else if cmd = 250 then sbReply opt rest2 ++ telnetRun f (skipSubneg rest2)
        else telnetRun f rest
      else telnetRun f rest
    | _ => telnetRun f rest

/-- `handleTelnetNegotiation(data)` of src/server/server.js: the reply bytes
generated for one inbound chunk. -/
def handleTelnetNegotiation (data : List Nat) : List Nat :=
  telnetRun data.length data

/-- Connection mode (`this.mode` of `MUD2Protocol`): 'TELNET', 'CLIENT', 'GAME'. -/
inductive Mode
  | TELNET
  | CLIENT
  | GAME
deriving DecidableEq

/-- Player stats record (`this.stats` of `MUD2Protocol`), fields in
constructor order. -/
structure GameStats where
  stamina : Nat
  maxStamina : Nat
  dexterity : Nat
  maxDexterity : Nat
  strength : Nat
  maxStrength : Nat
  magic : Nat
  maxMagic : Nat
  score : Nat
  weather : String
  blind : Bool
  deaf : Bool
  crippled : Bool
  dumb : Bool
deriving DecidableEq

/-- Constructor values of `this.stats`. -/
def initStats : GameStats :=
  ⟨0, 0, 0, 0, 0, 0, 0, 0, 0, "", false, false, false, false⟩

/-- Per-session decoder state: stats plus connection mode. -/
structure MudState where
  stats : GameStats
  mode : Mode
deriving DecidableEq

/-- A freshly constructed `MUD2Protocol` session ('TELNET' mode). -/
def initMudState : MudState := ⟨initStats, Mode.TELNET⟩

/-- The `{ type: ... }` command objects produced by `MUD2Protocol.parse` and
`interpretClientCode`. -/
inductive MudCmd
  | clear
  | reverse (value : Bool)
  | clearLine
  | promptStart
  | color (fg : String)
  | magic (fg : String)
  | combat (fg : String)
  | event (fg : String)
  | fesStart
  | dreamword (fg bg : String)
  | clientModeStart
  | colorDirect (fg bg : Int)
  | unknown (code : Nat)
deriving DecidableEq

/-- The JS whitespace class `\s` / `String.trim` set, restricted to the code
points that can occur in collected FES text (all are below 155, so the
non-ASCII JS space code points never arise). -/
def isJsSpace (c : Nat) : Bool :=
  c == 9 || c == 10 || c == 11 || c == 12 || c == 13 || c == 32

/-- JS `\d`, i.e. ASCII '0'-'9'. -/
def isDigitByte (c : Nat) : Bool := decide (48 ≤ c ∧ c ≤ 57)

/-- Numeric value of a nonempty decimal digit-run (JS `parseInt` on a match
of `/\d+/`). -/
def listToNum (l : List Nat) : Nat := l.foldl (fun a c => 10 * a + (c - 48)) 0

/-- Accumulator-based scanner behind `digitRuns`. -/
def digitRunsAux : List Nat → List Nat → List (List Nat)
  | cur, [] => if cur = [] then [] else [cur.reverse]
  | cur, c :: rest =>
    if isDigitByte c then digitRunsAux (c :: cur) rest
    else if cur = [] then digitRunsAux [] rest
    else cur.reverse :: digitRunsAux [] rest

/-- `text.match(/\d+/g)`: the maximal runs of ASCII digits in `text`,
in order (`[]` standing for a `null` match result). -/
def digitRuns (l : List Nat) : List (List Nat) := digitRunsAux [] l

/-- JS `toUpperCase` for a single ASCII code point. -/
def toUpperByte (c : Nat) : Nat := if 97 ≤ c ∧ c ≤ 122 then c - 32 else c

/-- `text.match(/[SRCFTB]\s*$/i)` followed by `.trim().toUpperCase()`:
the last non-whitespace character of `text`, uppercased, provided it is one
of S,R,C,F,T,B (case-insensitively) and only whitespace follows it. -/
def weatherLetterOf (txt : List Nat) : Option Nat :=
  match txt.reverse.dropWhile isJsSpace with
  | [] => none
  | c :: _ =>
    if toUpperByte c = 83 ∨ toUpperByte c = 82 ∨ toUpperByte c = 67 ∨
       toUpperByte c = 70 ∨ toUpperByte c = 84 ∨ toUpperByte c = 66 then
      some (toUpperByte c)
    else none

/-- The `weatherMap` lookup `weatherMap[w] || w` of `parseFESLine` (the
fallback returns the single-letter string itself). -/
def weatherWord (u : Nat) : String :=
  if u = 83 then "sunny"
  else if u = 82 then "raining"
  else if u = 67 then "cloudy"
  else if u = 70 then "foggy"
  else if u = 84 then "stormy"
  else if u = 66 then "snowing"
  else String.mk [Char.ofNat u]

/-- `MUD2Protocol.parseFESLine(text)` of src/client/js/mud2.js, on the
collected FES text: if at least 9 integer tokens are present, all nine
numeric fields are replaced positionally, up to four `[YN]` flag matches set
the boolean flags, a trailing weather letter sets the weather string, and the result
flag records that `onStatsUpdate` fired (the caller also sets GAME mode in
that case); otherwise nothing happens. -/
def parseFESLine (s : GameStats) (txt : List Nat) : GameStats × Bool :=
  let ns := digitRuns txt
  if 9 ≤ ns.length then
    let g := fun (k : Nat) => listToNum (ns.getD k [])
    let flags := txt.filter (fun c => c == 89 || c == 78)
    let s1 := { s with
      stamina := g 0, maxStamina := g 1, strength := g 2,
      maxStrength := g 3, dexterity := g 4, maxDexterity := g 5,
      magic := g 6, maxMagic := g 7, score := g 8 }
    let s2 := if 1 ≤ flags.length then { s1 with blind := flags.getD 0 0 == 89 } else s1
    let s3 := if 2 ≤ flags.length then { s2 with deaf := flags.getD 1 0 == 89 } else s2
    let s4 := if 3 ≤ flags.length then { s3 with crippled := flags.getD 2 0 == 89 } else s3
    let s5 := if 4 ≤ flags.length then { s4 with dumb := flags.getD 3 0 == 89 } else s4
    let s6 := match weatherLetterOf txt with
      | some u => { s5 with weather := weatherWord u }
      | none => s5
    (s6, true)
  else (s, false)

/-- The skip test inside the FES collection loop:
`data[i] >= 155 && data[i] <= 255`. -/
def isHighByte (b : Nat) : Bool := decide (155 ≤ b ∧ b ≤ 255)

/-- The FES collection loop of `MUD2Protocol.parse`: collect bytes into the
record text until a LF or CR (which is left unconsumed), skipping any
high (≥155) bytes; returns (collected text, remaining input starting at the
terminator). -/
def collectFes : List Nat → List Nat × List Nat
  | [] => ([], [])
  | b :: rest =>
    if b = 10 ∨ b = 13 then ([], b :: rest)
    else if isHighByte b then collectFes rest
    else
      let p := collectFes rest
      (b :: p.1, p.2)

/-- The terminator scan of `MUD2Protocol.parseClientCode`, with `k` the
running distance `end - start`: returns the bytes up to and including the
first 255, plus the remainder, or `none` when no 255 is found in the
window.  The JS loop breaks once `end - start > 20` but the final
`data[end] !== 255` test still inspects that break position, so a
terminator at offset 21 is accepted. -/
def takeTo255 : List Nat → Nat → Option (List Nat × List Nat)
  | [], _ => none
  | b :: rest, k =>
    if b = 255 then some ([b], rest)
    else if 21 ≤ k then none
    else
      match takeTo255 rest (k + 1) with
      | some p => some (b :: p.1, p.2)
      | none => none

/-- `MUD2Protocol.interpretClientCode(seq)`: the command for a complete
vendor sequence, plus whether it switches the session to GAME mode
(the `C02 C01` = 157,156 case calls `setMode('GAME')`). -/
def interpretClientCode (seq : List Nat) : Option MudCmd × Bool :=
  match seq with
  | [] => (none, false)
  | [_] => (none, false)
  | first :: s1 :: rest =>
    if first = 155 then (some .promptStart, false)
    else if first = 156 then (some (.color "blue"), false)
    else if first = 157 then
      if s1 = 156 then (some (.color "lightgreen"), true)
      else (some (.color "green"), false)
    else if first = 158 then (some (.color "cyan"), false)
    else if first = 159 then (some (.color "magenta"), false)
    else if first = 160 then (some (.color "red"), false)
    else if first = 161 then (some (.magic "lightblue"), false)
    else if first = 162 then (some (.combat "red"), false)
    else if first = 163 then (some (.event "red"), false)
    else if first = 164 then (some (.color "yellow"), false)
    else if first = 167 then
      match rest with
      | s2 :: _ =>
        if s1 = 163 ∧ s2 = 156 then (some .fesStart, false)
        else (some (.color "white"), false)
      | [] => (some (.unknown 167), false)
    else if first = 170 then (some (.dreamword "black" "cyan"), false)
    else if first = 250 then (some .clientModeStart, false)
    else if first = 254 then
      match rest with
      | s2 :: _ => (some (.colorDirect ((s1 : Int) - 155) ((s2 : Int) - 155)), false)
      | [] => (some (.unknown 254), false)
    else (some (.unknown first), false)

/-- The FES sub-mode epilogue of `MUD2Protocol.parse`: when the collected
text is nonempty after `trim()`, run `parseFESLine`; the `Nat` counts
`onStatsUpdate` notifications fired. -/
def fesStep (st : MudState) (txt : List Nat) : MudState × Nat :=
  if txt.any (fun c => !(isJsSpace c)) then
    if (parseFESLine st.stats txt).2 then (⟨(parseFESLine st.stats txt).1, Mode.GAME⟩, 1)
    else (⟨(parseFESLine st.stats txt).1, st.mode⟩, 0)
  else (st, 0)

/-- Result of `MUD2Protocol.parse`: the clean byte stream, the command list,
the final session state, and how many `onStatsUpdate` notifications fired. -/
structure ParseOut where
  clean : List Nat
  commands : List MudCmd
  state : MudState
  notifies : Nat
deriving DecidableEq

def ParseOut.consClean (b : Nat) (o : ParseOut) : ParseOut :=
  ⟨b :: o.clean, o.commands, o.state, o.notifies⟩

def ParseOut.withCmd (c : MudCmd) (o : ParseOut) : ParseOut :=
  ⟨o.clean, c :: o.commands, o.state, o.notifies⟩

def ParseOut.withCmds (cs : List MudCmd) (o : ParseOut) : ParseOut :=
  ⟨o.clean, cs ++ o.commands, o.state, o.notifies⟩

def ParseOut.addNotes (n : Nat) (o : ParseOut) : ParseOut :=
  ⟨o.clean, o.commands, o.state, n + o.notifies⟩

/-- Fuel-indexed main loop of `MUD2Protocol.parse(data)`: FES header
`167 163 156 255` enters the stats sub-mode; bytes 155–254 are tried as
vendor sequences (falling through to the clean stream when no terminator is
found); `ESC - <code>` handles the 3-byte escape dialect (an unknown code
falls through, emitting only the ESC); every other byte is emitted
unchanged. -/
def mud2Run : Nat → MudState → List Nat → ParseOut
  | 0, st, _ => ⟨[], [], st, 0⟩
  | _ + 1, st, [] => ⟨[], [], st, 0⟩
  | f + 1, st, b :: rest =>
    if b = 167 ∧ rest.take 3 = [163, 156, 255] then
      ParseOut.addNotes (fesStep st (collectFes (rest.drop 3)).1).2
        (mud2Run f (fesStep st (collectFes (rest.drop 3)).1).1 (collectFes (rest.drop 3)).2)
    else if 155 ≤ b ∧ b ≤ 254 then
      match takeTo255 rest 1 with
      | some p =>
        ParseOut.withCmds (interpretClientCode (b :: p.1)).1.toList
          (mud2Run f
            (if (interpretClientCode (b :: p.1)).2 then ⟨st.stats, Mode.GAME⟩ else st) p.2)
      | none => ParseOut.consClean b (mud2Run f st rest)
    else if b = 27 ∧ 2 ≤ rest.length ∧ rest.headD 0 = 45 then
      if rest.getD 1 0 = 67 then
        ParseOut.withCmd MudCmd.clear (mud2Run f ⟨st.stats, Mode.CLIENT⟩ (rest.drop 2))
      else if rest.getD 1 0 = 82 then
        ParseOut.withCmd (MudCmd.reverse true) (mud2Run f st (rest.drop 2))
      else if rest.getD 1 0 = 114 then
        ParseOut.withCmd (MudCmd.reverse false) (mud2Run f st (rest.drop 2))
      else if rest.getD 1 0 = 75 then
        ParseOut.withCmd MudCmd.clearLine (mud2Run f st (rest.drop 2))
      else if rest.getD 1 0 = 84 then mud2Run f st (rest.drop 2)
      else ParseOut.consClean b (mud2Run f st rest)
    else ParseOut.consClean b (mud2Run f st rest)

/-- `MUD2Protocol.parse(data)` of src/client/js/mud2.js. -/
def mud2Parse (st : MudState) (data : List Nat) : ParseOut :=
  mud2Run data.length st data

/-- Byte values (`charCodeAt`) of a Lean string literal, for writing
concrete inputs. -/
def strBytes (s : String) : List Nat := s.toList.map Char.toNat

/-- JS `toLowerCase` for a single ASCII code point. -/
def lowerByte (c : Nat) : Nat := if 65 ≤ c ∧ c ≤ 90 then c + 32 else c

/-- Case-insensitive literal match at the head of the input (`pat` given in
lowercase), as performed by the `/i` patterns of `parseVisibleStats`. -/
def ciStarts : List Nat → List Nat → Bool
  | [], _ => true
  | _ :: _, [] => false
  | p :: ps, c :: cs => lowerByte c == p && ciStarts ps cs

/-- The tail `[:\s]*(\d+)\/(\d+)` of the `Sta`/`Dex`/`Str` patterns of
`parseVisibleStats`, matched greedily (the character classes are disjoint,
so the regex engine's greedy match is deterministic here). -/
def tailDigitsPair (l : List Nat) : Option (Nat × Nat) :=
  let l1 := l.dropWhile (fun c => c == 58 || isJsSpace c)
  let d1 := l1.takeWhile isDigitByte
  if d1.isEmpty then none
  else
    match l1.dropWhile isDigitByte with
    | 47 :: r2 =>
      let d2 := r2.takeWhile isDigitByte
      if d2.isEmpty then none else some (listToNum d1, listToNum d2)
    | _ => none

/-- The tail `[:\s]*(\d+)` of the `Mag`/`Pts` patterns of
`parseVisibleStats`. -/
def tailDigitsOne (l : List Nat) : Option Nat :=
  let l1 := l.dropWhile (fun c => c == 58 || isJsSpace c)
  let d1 := l1.takeWhile isDigitByte
  if d1.isEmpty then none else some (listToNum d1)

/-- `text.match(/<pat>[:\s]*(\d+)\/(\d+)/i)`: try the pattern at each start
position from the left; on a literal-prefix hit whose tail fails, resume at
the next position, exactly as the regex engine does. -/
def findPair (pat : List Nat) : List Nat → Option (Nat × Nat)
  | [] => none
  | c :: rest =>
    if ciStarts pat (c :: rest) then
      match tailDigitsPair ((c :: rest).drop pat.length) with
      | some p => some p
      | none => findPair pat rest
    else findPair pat rest

/-- `text.match(/<pat>[:\s]*(\d+)/i)`, first match. -/
def findNum (pat : List Nat) : List Nat → Option Nat
  | [] => none
  | c :: rest =>
    if ciStarts pat (c :: rest) then
      match tailDigitsOne ((c :: rest).drop pat.length) with
      | some n => some n
      | none => findNum pat rest
    else findNum pat rest

/-- `text.match(/(sunny|cloudy|raining|snowing|foggy|stormy)/i)` followed by
`.toLowerCase()`: leftmost position wins, alternatives tried in pattern
order; the canonical lowercase keyword is returned. -/
def findWeatherKeyword : List Nat → Option String
  | [] => none
  | c :: rest =>
    if ciStarts (strBytes "sunny") (c :: rest) then some "sunny"
    else if ciStarts (strBytes "cloudy") (c :: rest) then some "cloudy"
    else if ciStarts (strBytes "raining") (c :: rest) then some "raining"
    else if ciStarts (strBytes "snowing") (c :: rest) then some "snowing"
    else if ciStarts (strBytes "foggy") (c :: rest) then some "foggy"
    else if ciStarts (strBytes "stormy") (c :: rest) then some "stormy"
    else findWeatherKeyword rest

/-- `MUD2Protocol.parseVisibleStats(text)` of src/client/js/mud2.js: the
textual fallback matcher.  Each of the six patterns updates only its own
field(s); the Bool is the returned `updated` flag (also gating the
`onStatsUpdate` callback). -/
def parseVisibleStats (s : GameStats) (text : List Nat) : GameStats × Bool :=
  let sta := findPair (strBytes "sta") text
  let dex := findPair (strBytes "dex") text
  let strm := findPair (strBytes "str") text
  let mag := findNum (strBytes "mag") text
  let pts := findNum (strBytes "pts") text
  let w := findWeatherKeyword text
  let s1 := match sta with
    | some p => { s with stamina := p.1, maxStamina := p.2 }
    | none => s
  let s2 := match dex with
    | some p => { s1 with dexterity := p.1, maxDexterity := p.2 }
    | none => s1
  let s3 := match strm with
    | some p => { s2 with strength := p.1, maxStrength := p.2 }
    | none => s2
  let s4 := match mag with
    | some n => { s3 with magic := n }
    | none => s3
  let s5 := match pts with
    | some n => { s4 with score := n }
    | none => s4
  let s6 := match w with
    | some word => { s5 with weather := word }
    | none => s5
  (s6, sta.isSome || dex.isSome || strm.isSome || mag.isSome || pts.isSome || w.isSome)

/-- `MUD2Protocol.getNAWS(width, height)`: the NAWS subnegotiation reply
(`width & 0xFF` / `height & 0xFF` modelled as `% 256`). -/
def getNAWS (width height : Nat) : List Nat :=
  [255, 250, 31, 0, width % 256, 0, height % 256, 255, 240]

/-- `MUD2Protocol.getTerminalType(type)`: the terminal-type subnegotiation
reply, with the type string already taken as its `charCodeAt` bytes. -/
def getTerminalType (t : List Nat) : List Nat :=
  [255, 250, 24, 0] ++ t ++ [255, 240]

/-! ## ANSI/SGR display decoder (`ANSIParser`, src/client/js/ansi.js) -/

/-- Display attribute state of `ANSIParser` (`this.foreground` etc.). -/
structure AnsiState where
  foreground : Nat
  background : Nat
  bold : Bool
  reverse : Bool
deriving DecidableEq

/-- `ANSIParser.reset()`, also the constructor state. -/
def ansiResetState : AnsiState := ⟨7, 0, false, false⟩

/-- The fixed 16-entry palette `this.colors`; `none` for an index outside
0–15 (JS `undefined`). -/
def ansiColors (n : Nat) : Option String :=
  if n = 0 then some "#000000"
  else if n = 1 then some "#aa0000"
  else if n = 2 then some "#00aa00"
  else if n = 3 then some "#aa5500"
  else if n = 4 then some "#0000aa"
  else if n = 5 then some "#aa00aa"
  else if n = 6 then some "#00aaaa"
  else if n = 7 then some "#aaaaaa"
  else if n = 8 then some "#555555"
  else if n = 9 then some "#ff5555"
  else if n = 10 then some "#55ff55"
  else if n = 11 then some "#ffff55"
  else if n = 12 then some "#5555ff"
  else if n = 13 then some "#ff55ff"
  else if n = 14 then some "#55ffff"
  else if n = 15 then some "#ffffff"
  else none

/-- `ANSIParser.getForegroundColor()`: brighten a bold foreground below 8;
under reverse video return the background colour (`colors[bg] || colors[0]`,
the fallback being the literal entry for 0); otherwise
`colors[fg] || colors[7]`. -/
def getForegroundColor (st : AnsiState) : String :=
  if st.reverse then (ansiColors st.background).getD "#000000"
  else
    (ansiColors (if st.bold ∧ st.foreground < 8 then st.foreground + 8
      else st.foreground)).getD "#aaaaaa"

/-- `ANSIParser.getBackgroundColor()`: mirror image of the foreground
resolution. -/
def getBackgroundColor (st : AnsiState) : String :=
  if st.reverse then
    (ansiColors (if st.bold ∧ st.foreground < 8 then st.foreground + 8
      else st.foreground)).getD "#aaaaaa"
  else (ansiColors st.background).getD "#000000"

/-- JS `parseInt(tok, 10)` on one CSI parameter token (whose characters lie
in 0x30–0x3F without ';'): value of the leading digit run, NaN (`none`)
when there is none. -/
def jsParseIntToken (l : List Nat) : Option Nat :=
  let d := l.takeWhile isDigitByte
  if d.isEmpty then none else some (listToNum d)

/-- Accumulator scanner behind `splitSemi`. -/
def splitSemiAux : List Nat → List Nat → List (List Nat)
  | cur, [] => [cur.reverse]
  | cur, c :: rest =>
    if c = 59 then cur.reverse :: splitSemiAux [] rest
    else splitSemiAux (c :: cur) rest

/-- JS `params.split(';')` (note `"".split(';')` is `[""]`). -/
def splitSemi (l : List Nat) : List (List Nat) := splitSemiAux [] l

/-- One case of the `switch (code)` in `ANSIParser.parseSGR`; unrecognised
codes leave the state unchanged. -/
def applySGRCode (st : AnsiState) (code : Nat) : AnsiState :=
  if code = 0 then ansiResetState
  else if code = 1 then { st with bold := true }
  else if code = 7 then { st with reverse := true }
  else if code = 22 then { st with bold := false }
  else if code = 27 then { st with reverse := false }
  else if 30 ≤ code ∧ code ≤ 37 then { st with foreground := code - 30 }
  else if code = 39 then { st with foreground := 7 }
  else if 40 ≤ code ∧ code ≤ 47 then { st with background := code - 40 }
  else if code = 49 then { st with background := 0 }
  else if 90 ≤ code ∧ code ≤ 97 then { st with foreground := code - 82 }
  else st

/-- `ANSIParser.parseSGR(params)`: an empty or `"0"` parameter string resets;
otherwise the `;`-separated tokens are parsed with `parseInt` and applied in
order, skipping NaN tokens. -/
def parseSGR (st : AnsiState) (params : List Nat) : AnsiState :=
  if params = [] ∨ params = [48] then ansiResetState
  else
    (splitSemi params).foldl
      (fun s tok =>
        match jsParseIntToken tok with
        | some code => applySGRCode s code
        | none => s) st

/-- The client-side scan for `IAC SE` inside `ANSIParser.filterTelnet`
(`while (j < str.length - 1)` from `j = i + 2`, then `i = j`): on success
resume after the SE pair; with fewer than two bytes left the loop stops at
`len - 1`, so a single trailing byte is reprocessed. -/
def clientSkipSE : List Nat → List Nat
  | a :: b :: rest => if a = 255 ∧ b = 240 then rest else clientSkipSE (b :: rest)
  | l => l

/-- Fuel-indexed loop of `ANSIParser.filterTelnet(str)`: `IAC IAC` emits a
literal 255; `IAC {WILL,WONT,DO,DONT} <opt>` skips three bytes;
`IAC SB ... IAC SE` skips the span; `IAC <240..249>` skips two; any other
`IAC <cmd>` advances one byte (reprocessing `cmd`); a trailing lone `IAC`
is dropped. -/
def filterTelnetRun : Nat → List Nat → List Nat
  | 0, _ => []
  | _ + 1, [] => []
  | f + 1, c :: rest =>
    if c = 255 then
      if rest = [] then []
      else if rest.headD 0 = 255 then 255 :: filterTelnetRun f rest.tail
      else if 251 ≤ rest.headD 0 ∧ rest.headD 0 ≤ 254 then
        filterTelnetRun f (rest.tail.drop 1)
      else if rest.headD 0 = 250 then filterTelnetRun f (clientSkipSE rest.tail)
      else if 240 ≤ rest.headD 0 ∧ rest.headD 0 ≤ 249 then filterTelnetRun f rest.tail
      else filterTelnetRun f rest
    else c :: filterTelnetRun f rest

/-- `ANSIParser.filterTelnet(str)` of src/client/js/ansi.js. -/
def filterTelnet (l : List Nat) : List Nat := filterTelnetRun l.length l

/-- CSI parameter bytes: ASCII 0x30–0x3F. -/
def isParamByte (c : Nat) : Bool := decide (48 ≤ c ∧ c ≤ 63)

/-- Display segments emitted by `ANSIParser.parse` (the JS `{text,fg,bg}`,
`{cursorMove}`, `{clear:'screen'|'line'}`, `{newline}`, `{bell}` objects). -/
inductive Seg
  | text (content : List Nat) (fg bg : String)
  | cursorMove (param : List Nat)
  | clearScreen
  | clearLine
  | newline
  | bell
deriving DecidableEq

/-- Flush the pending text buffer as a Text segment with the colours
resolved from the current attribute state (`if (buffer) segments.push...`). -/
def flushSeg (st : AnsiState) (buf : List Nat) : List Seg :=
  if buf = [] then []
  else [Seg.text buf (getForegroundColor st) (getBackgroundColor st)]

/-- Fuel-indexed main loop of `ANSIParser.parse` on the telnet-filtered
stream, carrying the attribute state and the pending text buffer.
`ESC [` collects parameter bytes and dispatches on the final byte (when the
final byte is missing the scan resumes right after the ESC); `ESC -` plus
two bytes is passed through verbatim into the buffer; BEL and LF flush and
emit; CR is dropped; printable (0x20–0x7E) and high (≥0x80) bytes are
buffered; every other control byte is dropped. -/
def ansiScan : Nat → AnsiState → List Nat → List Nat → List Seg × AnsiState
  | 0, st, buf, _ => (flushSeg st buf, st)
  | _ + 1, st, buf, [] => (flushSeg st buf, st)
  | f + 1, st, buf, c :: rest =>
    if c = 27 then
      match rest with
      | 91 :: rest2 =>
        match rest2.dropWhile isParamByte with
        | [] =>
          let o := ansiScan f st [] rest
          (flushSeg st buf ++ o.1, o.2)
        | fb :: rest3 =>
          let p := rest2.takeWhile isParamByte
          if fb = 109 then
            let o := ansiScan f (parseSGR st p) [] rest3
            (flushSeg st buf ++ o.1, o.2)
          else if fb = 72 ∨ fb = 102 then
            let o := ansiScan f st [] rest3
            (flushSeg st buf ++ Seg.cursorMove (if p = [] then [49, 59, 49] else p) :: o.1, o.2)
          else if fb = 74 then
            let o := ansiScan f st [] rest3
            (flushSeg st buf ++ (if p = [] ∨ p = [50] then [Seg.clearScreen] else []) ++ o.1, o.2)
          else if fb = 75 then
            let o := ansiScan f st [] rest3
            (flushSeg st buf ++ Seg.clearLine :: o.1, o.2)
          else if fb = 65 ∨ fb = 66 ∨ fb = 67 ∨ fb = 68 then
            let o := ansiScan f st [] rest3
            (flushSeg st buf ++ Seg.cursorMove (fb :: (if p = [] then [49] else p)) :: o.1, o.2)
          else
            let o := ansiScan f st [] rest3
            (flushSeg st buf ++ o.1, o.2)
      | 45 :: x :: rest3 =>
        let o := ansiScan f st [27, 45, x] rest3
        (flushSeg st buf ++ o.1, o.2)
      | [45] =>
        let o := ansiScan f st [27, 45] []
        (flushSeg st buf ++ o.1, o.2)
      | _ =>
        let o := ansiScan f st [] rest
        (flushSeg st buf ++ o.1, o.2)
    else if c = 7 then
      let o := ansiScan f st [] rest
      (flushSeg st buf ++ Seg.bell :: o.1, o.2)
    else if c = 13 then ansiScan f st buf rest
    else if c = 10 then
      let o := ansiScan f st [] rest
      (flushSeg st buf ++ Seg.newline :: o.1, o.2)
    else if (32 ≤ c ∧ c ≤ 126) ∨ 128 ≤ c then ansiScan f st (buf ++ [c]) rest
    else ansiScan f st buf rest

/-- `ANSIParser.parse(data)` of src/client/js/ansi.js: pre-filter telnet
bytes, then scan, returning the segment list and the updated attribute
state. -/
def ansiParse (st : AnsiState) (data : List Nat) : List Seg × AnsiState :=
  ansiScan (filterTelnet data).length st [] (filterTelnet data)

/-! ## Theorems -/
theorem skipSubneg_length_le : ∀ l : List Nat, (skipSubneg l).length ≤ l.length := by
  intro l
  induction l with
  | nil => simp [skipSubneg]
  | cons a t ih =>
    cases t with
    | nil => simp [skipSubneg]
    | cons b rest =>
      rw [skipSubneg]
      split
      · simp
        omega
      · exact le_trans ih (by simp)

theorem telnetRun_fuel : ∀ f g l, l.length ≤ f → l.length ≤ g →
    telnetRun f l = telnetRun g l := by
  intro f
  induction f with
  | zero =>
    intro g l hf _
    have hl : l = [] := List.length_eq_zero.mp (Nat.le_zero.mp hf)
    subst hl
    cases g <;> rfl
  | succ f ih =>
    intro g l hf hg
    cases l with
    | nil => cases g <;> rfl
    | cons a rest =>
      cases g with
      | zero => simp at hg
      | succ g =>
        simp only [List.length_cons, Nat.succ_le_succ_iff] at hf hg
        cases rest with
        | nil =>
          simp only [telnetRun]
          exact ih g [] (by simp) (by simp)
        | cons cmd rest1 =>
          cases rest1 with
          | nil =>
            simp only [telnetRun]
            exact ih g [cmd] (by simpa using hf) (by simpa using hg)
          | cons opt rest2 =>
            have hlen2 : rest2.length ≤ f ∧ rest2.length ≤ g := by
              constructor <;> simp at hf hg <;> omega
            have hlen0 : (cmd :: opt :: rest2).length ≤ f ∧
                (cmd :: opt :: rest2).length ≤ g := by
              constructor <;> simp at hf hg ⊢ <;> omega
            simp only [telnetRun]
            by_cases ha : a = 255
            · simp only [if_pos ha]
              by_cases h1 : cmd = 253
              · simp only [if_pos h1, ih g rest2 hlen2.1 hlen2.2]
              · by_cases h2 : cmd = 251
                · simp only [if_neg h1, if_pos h2, ih g rest2 hlen2.1 hlen2.2]
                · by_cases h3 : cmd = 250
                  · have hsk := skipSubneg_length_le rest2
                    simp only [if_neg h1, if_neg h2, if_pos h3,
                      ih g (skipSubneg rest2) (le_trans hsk hlen2.1)
                        (le_trans hsk hlen2.2)]
                  · simp only [if_neg h1, if_neg h2, if_neg h3,
                      ih g (cmd :: opt :: rest2) hlen0.1 hlen0.2]
            · simp only [if_neg ha, ih g (cmd :: opt :: rest2) hlen0.1 hlen0.2]

theorem handleTelnetNegotiation_do (opt : Nat) (rest : List Nat) :
    handleTelnetNegotiation (255 :: 253 :: opt :: rest) =
      doReply opt ++ handleTelnetNegotiation rest := by
  show telnetRun (255 :: 253 :: opt :: rest).length _ = _
  simp only [List.length_cons, telnetRun, if_pos rfl]
  rw [telnetRun_fuel (rest.length + 1 + 1) rest.length rest (by omega) (le_refl _)]
  rfl

/-- C1, counterexample: the chunk `[255,253,255,253,24]` contains the complete
triple `IAC DO 24` at index 2, yet the negotiator's entire reply is
`[255,252,255]` (the WONT answer to the overlapping `IAC DO 255` at index 0):
no `IAC WILL TERMINAL-TYPE` reply appears anywhere for the index-2 triple,
because its `IAC` was consumed as the option byte of the preceding triple. -/
theorem C1_counterexample :
    ([255, 253, 255, 253, 24] : List Nat).drop 2 = [255, 253, 24] ∧
    handleTelnetNegotiation [255, 253, 255, 253, 24] = [255, 252, 255] ∧
    ¬ [255, 251, 24] <:+: handleTelnetNegotiation [255, 253, 255, 253, 24] := by
  refine ⟨rfl, rfl, ?_⟩
  decide

/-- C1 (amended): for every complete triple `IAC DO <opt>` that the
negotiator's left-to-right scan actually reaches (equivalently, for every
chunk beginning with such a triple), the reply bytes for that triple are
exactly: opt=24 → `[255,251,24]`; opt=31 → `[255,251,31]` immediately
followed by `[255,250,31,0,80,0,24,255,240]`; opt=1 → `[255,252,1]`;
any other opt → `[255,252,opt]`; followed by the replies for the rest of
the chunk.  (Triples overlapped by an earlier consumed sequence are not
answered, per the counterexample.) -/
theorem C1_do_reply_table (opt : Nat) (rest : List Nat) :
    handleTelnetNegotiation (255 :: 253 :: opt :: rest) =
      (if opt = 24 then [255, 251, 24]
       else if opt = 31 then [255, 251, 31] ++ [255, 250, 31, 0, 80, 0, 24, 255, 240]
       else if opt = 1 then [255, 252, 1]
       else [255, 252, opt]) ++ handleTelnetNegotiation rest := by
  rw [handleTelnetNegotiation_do]
  rfl

theorem collectFes_snd_length : ∀ l : List Nat, (collectFes l).2.length ≤ l.length := by
  intro l
  induction l with
  | nil => simp [collectFes]
  | cons b rest ih =>
    rw [collectFes]
    split
    · simp
    · split
      · exact le_trans ih (by simp)
      · simpa using le_trans ih (by simp)

theorem takeTo255_some_length : ∀ (l : List Nat) (k : Nat) (p : List Nat × List Nat),
    takeTo255 l k = some p → p.2.length < l.length := by
  intro l
  induction l with
  | nil => intro k p h; simp [takeTo255] at h
  | cons b rest ih =>
    intro k p h
    rw [takeTo255] at h
    split at h
    · cases h
      simp
    · split at h
      · cases h
      · revert h
        cases hq : takeTo255 rest (k + 1) with
        | some q =>
          intro h
          cases h
          have := ih (k + 1) q hq
          simp
          omega
        | none => intro h; cases h

theorem mud2Run_fuel : ∀ f g st l, l.length ≤ f → l.length ≤ g →
    mud2Run f st l = mud2Run g st l := by
  intro f
  induction f with
  | zero =>
    intro g st l hf _
    have hl : l = [] := List.length_eq_zero.mp (Nat.le_zero.mp hf)
    subst hl
    cases g <;> rfl
  | succ f ih =>
    intro g st l hf hg
    cases l with
    | nil => cases g <;> rfl
    | cons b rest =>
      cases g with
      | zero => simp at hg
      | succ g =>
        simp only [List.length_cons, Nat.succ_le_succ_iff] at hf hg
        simp only [mud2Run]
        by_cases h1 : b = 167 ∧ rest.take 3 = [163, 156, 255]
        · simp only [if_pos h1]
          have hc := collectFes_snd_length (rest.drop 3)
          have hd : (rest.drop 3).length ≤ rest.length := by
            rw [List.length_drop]
            omega
          rw [ih g _ _ (by omega) (by omega)]
        · simp only [if_neg h1]
          by_cases h2 : 155 ≤ b ∧ b ≤ 254
          · simp only [if_pos h2]
            cases h3 : takeTo255 rest 1 with
            | some p =>
              have hp := takeTo255_some_length rest 1 p h3
              simp only [h3]
              rw [ih g _ _ (by omega) (by omega)]
            | none =>
              simp only [h3]
              rw [ih g st rest hf hg]
          · simp only [if_neg h2]
            have hdp : (rest.drop 2).length ≤ rest.length := by
              rw [List.length_drop]
              omega
            by_cases h4 : b = 27 ∧ 2 ≤ rest.length ∧ rest.headD 0 = 45
            · simp only [if_pos h4]
              by_cases h5 : rest.getD 1 0 = 67
              · simp only [if_pos h5]
                rw [ih g _ _ (by omega) (by omega)]
              · simp only [if_neg h5]
                by_cases h6 : rest.getD 1 0 = 82
                · simp only [if_pos h6]
                  rw [ih g _ _ (by omega) (by omega)]
                · simp only [if_neg h6]
                  by_cases h7 : rest.getD 1 0 = 114
                  · simp only [if_pos h7]
                    rw [ih g _ _ (by omega) (by omega)]
                  · simp only [if_neg h7]
                    by_cases h8 : rest.getD 1 0 = 75
                    · simp only [if_pos h8]
                      rw [ih g _ _ (by omega) (by omega)]
                    · simp only [if_neg h8]
                      by_cases h9 : rest.getD 1 0 = 84
                      · simp only [if_pos h9]
                        exact ih g _ _ (by omega) (by omega)
                      · simp only [if_neg h9]
                        rw [ih g st rest hf hg]
            · simp only [if_neg h4]
              rw [ih g st rest hf hg]


/-- C2: feeding the vendor decoder the FES header `[167,163,156,255]`, the
ASCII text `"100 100 100 100 100 100 50 50 12345 N N N N 30 S"` and a LF
yields exactly the stated GameStats (weather "sunny", all flags false),
forces the connection mode to Game, and fires the stats-updated
notification once; the LF itself is the only clean byte and no vendor
commands are produced. -/
theorem C2_fes_stats_example :
    mud2Parse initMudState
        ([167, 163, 156, 255] ++
          strBytes "100 100 100 100 100 100 50 50 12345 N N N N 30 S" ++ [10]) =
      ⟨[10], [],
        ⟨{ stamina := 100, maxStamina := 100, strength := 100, maxStrength := 100,
           dexterity := 100, maxDexterity := 100, magic := 50, maxMagic := 50,
           score := 12345, weather := "sunny", blind := false, deaf := false,
           crippled := false, dumb := false },
          Mode.GAME⟩, 1⟩ := by
  decide

/-- C3: a binary stats record whose collected text contains fewer than 9
integer tokens is discarded wholesale: `parseFESLine` returns the previous
GameStats value with no field changed and reports no update, and the
enclosing FES step leaves the whole session state unchanged and fires no
stats-updated notification. -/
theorem C3_short_record_discarded (st : MudState) (txt : List Nat)
    (h : (digitRuns txt).length < 9) :
    parseFESLine st.stats txt = (st.stats, false) ∧ fesStep st txt = (st, 0) := by
  have h1 : parseFESLine st.stats txt = (st.stats, false) := by
    unfold parseFESLine
    rw [if_neg (by omega)]
  refine ⟨h1, ?_⟩
  unfold fesStep
  split
  · rw [h1]
    rfl
  · rfl

theorem C3_witness :
    (digitRuns (strBytes "Sta 100/200")).length < 9 ∧
    parseFESLine initStats (strBytes "Sta 100/200") = (initStats, false) ∧
    fesStep initMudState (strBytes "Sta 100/200") = (initMudState, 0) :=
  ⟨by decide,
    (C3_short_record_discarded initMudState (strBytes "Sta 100/200") (by decide)).1,
    (C3_short_record_discarded initMudState (strBytes "Sta 100/200") (by decide)).2⟩

theorem fesStep_mode (st : MudState) (txt : List Nat) :
    (fesStep st txt).1.mode = Mode.GAME ∨ (fesStep st txt).1.mode = st.mode := by
  unfold fesStep
  split
  · split
    · exact Or.inl rfl
    · exact Or.inr rfl
  · exact Or.inr rfl

theorem mud2Run_mode : ∀ (f : Nat) (st : MudState) (l : List Nat),
    st.mode ≠ Mode.TELNET → (mud2Run f st l).state.mode ≠ Mode.TELNET := by
  intro f
  induction f with
  | zero => intro st l h; exact h
  | succ f ih =>
    intro st l h
    cases l with
    | nil => exact h
    | cons b rest =>
      simp only [mud2Run]
      by_cases h1 : b = 167 ∧ rest.take 3 = [163, 156, 255]
      · simp only [if_pos h1, ParseOut.addNotes]
        apply ih
        rcases fesStep_mode st (collectFes (rest.drop 3)).1 with hm | hm
        · rw [hm]
          exact fun hc => Mode.noConfusion hc
        · rw [hm]
          exact h
      · simp only [if_neg h1]
        by_cases h2 : 155 ≤ b ∧ b ≤ 254
        · simp only [if_pos h2]
          cases hc : takeTo255 rest 1 with
          | some p =>
            simp only [hc, ParseOut.withCmds]
            apply ih
            by_cases hic : (interpretClientCode (b :: p.1)).2 = true
            · rw [if_pos hic]
              show Mode.GAME ≠ Mode.TELNET
              exact fun hc => Mode.noConfusion hc
            · rw [if_neg hic]
              exact h
          | none =>
            simp only [hc, ParseOut.consClean]
            exact ih st rest h
        · simp only [if_neg h2]
          by_cases h4 : b = 27 ∧ 2 ≤ rest.length ∧ rest.headD 0 = 45
          · simp only [if_pos h4]
            split_ifs with h5 h6 h7 h8 h9
            · simp only [ParseOut.withCmd]
              apply ih
              show Mode.CLIENT ≠ Mode.TELNET
              exact fun hc => Mode.noConfusion hc
            · simp only [ParseOut.withCmd]
              exact ih st _ h
            · simp only [ParseOut.withCmd]
              exact ih st _ h
            · simp only [ParseOut.withCmd]
              exact ih st _ h
            · exact ih st _ h
            · simp only [ParseOut.consClean]
              exact ih st rest h
          · simp only [if_neg h4, ParseOut.consClean]
            exact ih st rest h

/-- C4, counterexample: the mode state machine does regress from Game to
ClientMode.  From a fresh session, the vendor sequence `[157,156,255]`
(`C02 C01`) sets the mode to Game, but a following escape-dash clear-screen
sequence `ESC '-' 'C'` (`[27,45,67]`) calls `setMode('CLIENT')`
unconditionally and moves the mode back to ClientMode. -/
theorem C4_counterexample :
    (mud2Parse initMudState [157, 156, 255]).state.mode = Mode.GAME ∧
    (mud2Parse (mud2Parse initMudState [157, 156, 255]).state [27, 45, 67]).state.mode =
      Mode.CLIENT := by
  exact ⟨rfl, rfl⟩

/-- C4 (amended): the mode never returns to Telnet: for every sequence of
decode calls, once the ConnectionMode is ClientMode or Game it is never
Telnet again (`setMode` is only ever invoked with 'CLIENT' or 'GAME').
Game → ClientMode regression, however, is possible via the escape-dash
clear-screen sequence, per the counterexample. -/
theorem C4_never_returns_to_telnet (st : MudState) (data : List Nat)
    (h : st.mode ≠ Mode.TELNET) :
    (mud2Parse st data).state.mode ≠ Mode.TELNET :=
  mud2Run_mode data.length st data h

theorem C4_witness :
    ((⟨initStats, Mode.CLIENT⟩ : MudState).mode ≠ Mode.TELNET) ∧
    (mud2Parse ⟨initStats, Mode.CLIENT⟩ [157, 156, 255, 27, 45, 67]).state.mode ≠
      Mode.TELNET :=
  ⟨by decide,
    C4_never_returns_to_telnet ⟨initStats, Mode.CLIENT⟩ [157, 156, 255, 27, 45, 67]
      (by decide)⟩

theorem takeTo255_none : ∀ (l : List Nat) (k : Nat), k ≤ 21 →
    (∀ x ∈ l.take (22 - k), x ≠ 255) → takeTo255 l k = none := by
  intro l
  induction l with
  | nil => intro k _ _; rfl
  | cons b rest ih =>
    intro k hk hx
    have hb : b ≠ 255 := by
      apply hx
      have h22 : 22 - k = (21 - k) + 1 := by omega
      rw [h22, List.take_succ_cons]
      simp
    rw [takeTo255, if_neg hb]
    by_cases h21 : 21 ≤ k
    · rw [if_pos h21]
    · rw [if_neg h21]
      have hrec : takeTo255 rest (k + 1) = none := by
        apply ih (k + 1) (by omega)
        intro x hxm
        apply hx
        have h22 : 22 - k = (22 - (k + 1)) + 1 := by omega
        rw [h22, List.take_succ_cons]
        exact List.mem_cons_of_mem b hxm
      rw [hrec]

/-- C5, counterexample: the look-ahead bound is in fact 21 bytes, not 20.
The starter byte 200 followed by twenty non-0xFF bytes and a 0xFF at offset
21 has no terminator within the 20-byte look-ahead, yet it is consumed as a
vendor command (`unknown 200`): the clean output is empty rather than
starting with 200. -/
theorem C5_counterexample :
    (∀ x ∈ (List.replicate 20 65 ++ [255]).take 20, x ≠ 255) ∧
    mud2Parse initMudState (200 :: (List.replicate 20 65 ++ [255])) =
      ⟨[], [MudCmd.unknown 200], initMudState, 0⟩ := by
  exact ⟨by decide, by decide⟩

/-- C5 (amended): for every scan position holding a vendor starter byte in
[155,254], if no terminator byte 0xFF occurs within the **21**-byte
look-ahead after that position (the loop's safety limit is 20, but the
final test inspects one more byte), the starter is not consumed as a
command: it is emitted unchanged into the clean output, no VendorCommand is
produced, and scanning resumes at the next byte with the session state
untouched. -/
theorem C5_unterminated_passthrough (st : MudState) (b : Nat) (rest : List Nat)
    (hb : 155 ≤ b ∧ b ≤ 254) (hw : ∀ x ∈ rest.take 21, x ≠ 255) :
    mud2Parse st (b :: rest) =
      ⟨b :: (mud2Parse st rest).clean, (mud2Parse st rest).commands,
        (mud2Parse st rest).state, (mud2Parse st rest).notifies⟩ := by
  have hno : takeTo255 rest 1 = none := takeTo255_none rest 1 (by omega) (by simpa using hw)
  have hfes : ¬ (b = 167 ∧ rest.take 3 = [163, 156, 255]) := by
    rintro ⟨hb167, htake⟩
    have h255 : (255 : Nat) ∈ rest.take 3 := by
      rw [htake]
      simp
    have hsub : (255 : Nat) ∈ rest.take 21 := by
      have h3 : rest.take 3 = (rest.take 21).take 3 := by
        rw [List.take_take]
        norm_num
      rw [h3] at h255
      exact List.take_subset 3 (rest.take 21) h255
    exact hw 255 hsub rfl
  show mud2Run (rest.length + 1) st (b :: rest) = _
  simp only [mud2Run, if_neg hfes, if_pos hb, hno]
  rfl

theorem C5_witness :
    ((155 : Nat) ≤ 200 ∧ (200 : Nat) ≤ 254) ∧
    (∀ x ∈ (List.replicate 25 65).take 21, x ≠ 255) ∧
    mud2Parse initMudState (200 :: List.replicate 25 65) =
      ⟨200 :: (mud2Parse initMudState (List.replicate 25 65)).clean,
        (mud2Parse initMudState (List.replicate 25 65)).commands,
        (mud2Parse initMudState (List.replicate 25 65)).state,
        (mud2Parse initMudState (List.replicate 25 65)).notifies⟩ :=
  ⟨by decide, by decide,
    C5_unterminated_passthrough initMudState 200 (List.replicate 25 65)
      (by decide) (by decide)⟩

theorem collectFes_append (body : List Nat) (t : Nat) (rest : List Nat)
    (hb : ∀ x ∈ body, x ≠ 10 ∧ x ≠ 13) (ht : t = 10 ∨ t = 13) :
    collectFes (body ++ t :: rest) =
      (body.filter (fun b => !(isHighByte b)), t :: rest) := by
  induction body with
  | nil =>
    simp only [List.nil_append, List.filter_nil]
    rw [collectFes, if_pos ht]
  | cons b body ih =>
    have hb0 := hb b (List.mem_cons_self b body)
    have hbrest : ∀ x ∈ body, x ≠ 10 ∧ x ≠ 13 := fun x hx => hb x (List.mem_cons_of_mem b hx)
    have hnt : ¬ (b = 10 ∨ b = 13) := by
      rintro (h | h)
      · exact hb0.1 h
      · exact hb0.2 h
    simp only [List.cons_append]
    rw [collectFes, if_neg hnt]
    by_cases hh : isHighByte b = true
    · rw [if_pos hh, ih hbrest]
      simp [List.filter_cons, hh]
    · rw [if_neg hh, ih hbrest]
      simp [List.filter_cons, hh]

theorem mud2Parse_fes (st : MudState) (l : List Nat) :
    mud2Parse st (167 :: 163 :: 156 :: 255 :: l) =
      ParseOut.addNotes (fesStep st (collectFes l).1).2
        (mud2Parse (fesStep st (collectFes l).1).1 (collectFes l).2) := by
  show mud2Run (l.length + 1 + 1 + 1 + 1) st _ = _
  rw [mud2Run, if_pos ⟨rfl, rfl⟩]
  simp only [List.drop_succ_cons, List.drop_zero]
  rw [mud2Run_fuel (l.length + 1 + 1 + 1) ((collectFes l).2.length)
    (fesStep st (collectFes l).1).1 (collectFes l).2
    (le_trans (collectFes_snd_length l) (by omega)) (le_refl _)]
  rfl

theorem mud2Parse_clean_cons (st : MudState) (b : Nat) (rest : List Nat)
    (h1 : ¬ (b = 167 ∧ rest.take 3 = [163, 156, 255]))
    (h2 : ¬ (155 ≤ b ∧ b ≤ 254))
    (h3 : ¬ (b = 27 ∧ 2 ≤ rest.length ∧ rest.headD 0 = 45)) :
    mud2Parse st (b :: rest) = ParseOut.consClean b (mud2Parse st rest) := by
  show mud2Run (rest.length + 1) st (b :: rest) = _
  simp only [mud2Run, if_neg h1, if_neg h2, if_neg h3]
  rfl

/-- C10 (implicit): the CR or LF byte terminating a binary stats record is
not consumed by the stats sub-mode: for every input consisting of the FES
header, a record body free of CR/LF, and then the terminator, the
terminator byte itself is emitted into the clean output stream (in front of
whatever the rest of the chunk produces), where the downstream ANSI decoder
will see it. -/
theorem C10_fes_terminator_emitted (st : MudState) (body : List Nat) (t : Nat)
    (rest : List Nat) (hbody : ∀ x ∈ body, x ≠ 10 ∧ x ≠ 13) (ht : t = 10 ∨ t = 13) :
    (mud2Parse st ([167, 163, 156, 255] ++ body ++ t :: rest)).clean =
      t :: (mud2Parse (fesStep st (body.filter (fun b => !(isHighByte b)))).1 rest).clean := by
  have hlist : ([167, 163, 156, 255] ++ body ++ t :: rest : List Nat) =
      167 :: 163 :: 156 :: 255 :: (body ++ t :: rest) := rfl
  rw [hlist, mud2Parse_fes, collectFes_append body t rest hbody ht]
  simp only [ParseOut.addNotes]
  rw [mud2Parse_clean_cons _ t rest
    (by rintro ⟨hh, _⟩; rcases ht with h | h <;> omega)
    (by rintro ⟨hh, _⟩; rcases ht with h | h <;> omega)
    (by rintro ⟨hh, _⟩; rcases ht with h | h <;> omega)]
  rfl

theorem C10_witness :
    (∀ x ∈ strBytes "hi", x ≠ 10 ∧ x ≠ 13) ∧ ((10 : Nat) = 10 ∨ (10 : Nat) = 13) ∧
    (mud2Parse initMudState ([167, 163, 156, 255] ++ strBytes "hi" ++ 10 :: [65])).clean =
      10 :: (mud2Parse
        (fesStep initMudState ((strBytes "hi").filter (fun b => !(isHighByte b)))).1
        [65]).clean :=
  ⟨by decide, Or.inl rfl,
    C10_fes_terminator_emitted initMudState (strBytes "hi") 10 [65] (by decide) (Or.inl rfl)⟩

/-- C9: running the textual fallback matcher on `"Sta:80/120"` (no
stats-record header involved) sets stamina to 80 and maxStamina to 120,
leaves every other GameStats field unchanged — for every prior GameStats
value — and reports that an update occurred (which fires the stats-updated
callback). -/
theorem C9_visible_stats_partial_update (s : GameStats) :
    parseVisibleStats s (strBytes "Sta:80/120") =
      ({ s with stamina := 80, maxStamina := 120 }, true) := by
  have hsta : findPair (strBytes "sta") (strBytes "Sta:80/120") = some (80, 120) := by
    decide
  have hdex : findPair (strBytes "dex") (strBytes "Sta:80/120") = none := by decide
  have hstr : findPair (strBytes "str") (strBytes "Sta:80/120") = none := by decide
  have hmag : findNum (strBytes "mag") (strBytes "Sta:80/120") = none := by decide
  have hpts : findNum (strBytes "pts") (strBytes "Sta:80/120") = none := by decide
  have hw : findWeatherKeyword (strBytes "Sta:80/120") = none := by decide
  simp only [parseVisibleStats, hsta, hdex, hstr, hmag, hpts, hw]
  rfl

/-- C6: processing SGR code 0 — or an empty parameter string, which the code
treats identically, and equally the literal `"0"` parameter string — resets
the display attributes to exactly {foreground 7, background 0, bold false,
reverse false}, from every prior attribute state. -/
theorem C6_sgr_zero_resets (st : AnsiState) :
    applySGRCode st 0 =
      { foreground := 7, background := 0, bold := false, reverse := false } ∧
    parseSGR st (strBytes "0") =
      { foreground := 7, background := 0, bold := false, reverse := false } ∧
    parseSGR st (strBytes "") =
      { foreground := 7, background := 0, bold := false, reverse := false } :=
  ⟨rfl, rfl, rfl⟩

/-- C7: decoding `"\x1b[31mHello\x1b[0m world\n"` from the default attribute
state produces exactly Text "Hello" in #aa0000 on #000000, then
Text " world" in #aaaaaa on #000000, then Newline, in that order. -/
theorem C7_ansi_example :
    (ansiParse ansiResetState (strBytes "\x1b[31mHello\x1b[0m world\n")).1 =
      [Seg.text (strBytes "Hello") "#aa0000" "#000000",
       Seg.text (strBytes " world") "#aaaaaa" "#000000",
       Seg.newline] := by
  decide

theorem clientSkipSE_naws_body (a b : Nat) :
    clientSkipSE [31, 0, a, 0, b, 255, 240] = [] := by
  rw [clientSkipSE, if_neg (by simp)]
  rw [clientSkipSE, if_neg (by simp)]
  rw [clientSkipSE, if_neg (by simp)]
  rw [clientSkipSE, if_neg (by simp)]
  rw [clientSkipSE, if_neg (by simp)]
  rw [clientSkipSE, if_pos ⟨rfl, rfl⟩]

/-- C8: round-trip purity of the negotiator's own replies: for every width
and height, the NAWS reply `[255,250,31,0,w,0,h,255,240]` and the
terminal-type reply `[255,250,24,0,...,"ansi",255,240]` are stripped
entirely by the ANSI decoder's telnet-filter pass — the clean output is
empty, no byte reaches the text stream. -/
theorem C8_replies_strip_to_empty (w h : Nat) :
    filterTelnet (getNAWS w h) = [] ∧
    filterTelnet (getTerminalType (strBytes "ansi")) = [] := by
  constructor
  · have h9 : (getNAWS w h).length = 9 := rfl
    show filterTelnetRun (getNAWS w h).length (getNAWS w h) = []
    rw [h9]
    simp only [getNAWS]
    rw [filterTelnetRun, if_pos rfl, if_neg (by simp)]
    simp only [List.headD_cons, List.tail_cons]
    rw [if_neg (by norm_num), if_neg (by norm_num), if_pos trivial]
    rw [clientSkipSE_naws_body]
    rfl
  · decide
